import Mathlib

/-!
Shallow embedding of the task-lifecycle and reporting core of
src/pushup_mvp/app.py (a workout-reminder bot backed by a sqlite store).

Modelling conventions:

* Timestamps are natural numbers (unix seconds); every call to
  datetime.now is threaded through as an explicit `now` argument.
* The sqlite relations `tasks` and `events` are lists of rows in
  insertion order.  An SQL UPDATE .. WHERE is a List.map guarded by the
  WHERE clause, an INSERT is an append, a fetchone is List.find?.
* Fresh uuid4 task ids are passed in explicitly (the `task_id` / `fresh`
  arguments); the model makes no freshness assumption except where a
  theorem states one (the tasks-table primary-key Nodup invariant).
* Calendar dates inside the report aggregator are day counts from a
  fixed Monday epoch, so Python date.weekday() becomes d % 7 with
  0 = Monday; date.isoformat() becomes an explicit iso : Nat -> String
  argument (the join between planned slots and stored rows happens on
  these strings, exactly as in the source).
* Python round(x, 2) is modelled on exact rationals with half-to-even
  tie-breaking (the documented semantics of round); binary
  floating-point representation artifacts are out of scope.
* The Telegram transport (send_telegram_message / answer_callback) is an
  external collaborator; only the acknowledgement texts the webhook
  chooses are modelled, as the String component of the returned pair.
-/

namespace Pushup

/-- A row of the sqlite `tasks` relation (see init_db in app.py). -/
structure Task where
  task_id : String
  user_id : String
  date : String
  time : String
  slot_id : String
  status : String
  created_at : Nat
  timeout_at : Nat
  clicked_at : Option Nat
  deriving DecidableEq

/-- A row of the append-only sqlite `events` relation. -/
structure Event where
  task_id : String
  user_id : Option String
  event_type : String
  created_at : Nat
  meta : Option String
  deriving DecidableEq

/-- The durable store: the two sqlite relations, rows in insertion order. -/
structure Store where
  tasks : List Task
  events : List Event
  deriving DecidableEq

/-- A configured Telegram recipient (config telegram.users entry). -/
structure User where
  chat_id : String
  name : String
  deriving DecidableEq

/-- app.py create_task (lines 312-334): INSERT one fresh row with status
"pending", created_at = now and timeout_at = now + timeout_minutes
(tm is in minutes, timestamps in seconds).  clicked_at starts NULL. -/
def create_task (s : Store) (now tm : Nat) (task_id user_id date_str time_str slot_id : String) :
    Store :=
  { s with
    tasks := s.tasks ++
      [{ task_id := task_id, user_id := user_id, date := date_str, time := time_str,
         slot_id := slot_id, status := "pending", created_at := now,
         timeout_at := now + 60 * tm, clicked_at := none }] }

/-- app.py update_task_status (lines 337-347): UPDATE tasks SET status,
clicked_at WHERE task_id = ?, then INSERT one events row whose
event_type is the new status. -/
def update_task_status (s : Store) (now : Nat) (task_id status : String) : Store :=
  { tasks := s.tasks.map fun t =>
      if t.task_id = task_id then { t with status := status, clicked_at := some now } else t,
    events := s.events ++
      [{ task_id := task_id, user_id := none, event_type := status,
         created_at := now, meta := none }] }

/-- app.py upsert_task (lines 350-372): look up the natural key
(user_id, date, time, slot_id); if a row exists overwrite its status and
clicked_at, otherwise INSERT a new row with the given status,
created_at = now, a recomputed deadline, and clicked_at = now.
Returns the affected task id alongside the store. -/
def upsert_task (s : Store) (now tm : Nat) (new_id user_id date_str time_str slot_id status : String) :
    Store × String :=
  match s.tasks.find? fun t =>
      t.user_id == user_id && t.date == date_str && t.time == time_str && t.slot_id == slot_id with
  | some row =>
    ({ s with
       tasks := s.tasks.map fun t =>
         if t.task_id = row.task_id then { t with status := status, clicked_at := some now } else t },
     row.task_id)
  | none =>
    ({ s with
       tasks := s.tasks ++
         [{ task_id := new_id, user_id := user_id, date := date_str, time := time_str,
            slot_id := slot_id, status := status, created_at := now,
            timeout_at := now + 60 * tm, clicked_at := some now }] },
     new_id)

/-- app.py timeout_scan (lines 415-426): SELECT the ids of rows with
status = "pending" and timeout_at <= now, then for each selected id
UPDATE that row to status "timeout" with clicked_at = now. -/
def timeout_scan (s : Store) (now : Nat) : Store :=
  let ids := (s.tasks.filter fun t =>
    t.status == "pending" && decide (t.timeout_at ≤ now)).map Task.task_id
  { s with
    tasks := s.tasks.map fun t =>
      if t.task_id ∈ ids then { t with status := "timeout", clicked_at := some now } else t }

/-! Webhook dispatch layer.  The callback payload of a "set" action is
Python task_id.split("|", 3); we model that split character by
character over the string's data. -/

/-- Helper for split_bar: scan the character list, cutting at every bar
character; cur accumulates the current field in reverse. -/
def split_bar_aux : List Char → List Char → List String
  | [], cur => [String.mk cur.reverse]
  | c :: rest, cur =>
    if c = '|' then String.mk cur.reverse :: split_bar_aux rest []
    else split_bar_aux rest (c :: cur)

/-- Split a string at every bar character (Python s.split with that
separator and no maxsplit). -/
def split_bar (s : String) : List String := split_bar_aux s.toList []

/-- Rejoin fields with bar separators (used to reproduce maxsplit=3:
everything after the third separator stays one field). -/
def join_bar : List String → String
  | [] => ""
  | [s] => s
  | s :: rest => s ++ "|" ++ join_bar rest

/-- Python date_str, time_str, slot_id, status = descriptor.split("|", 3):
succeeds exactly when the descriptor has at least three bar separators;
the fourth field keeps any further separators.  On fewer fields the
unpacking raises (modelled as none). -/
def split4 (s : String) : Option (String × String × String × String) :=
  match split_bar s with
  | a :: b :: c :: d :: rest => some (a, b, c, join_bar (d :: rest))
  | _ => none

/-- app.py webhook "set" branch (lines 675-683): parse the descriptor;
on success upsert and acknowledge the new status, on any failure
acknowledge failure and leave the store untouched. -/
def webhook_set (s : Store) (now tm : Nat) (new_id chat_id payload : String) : Store × String :=
  match split4 payload with
  | some (date_str, time_str, slot_id, status) =>
    ((upsert_task s now tm new_id chat_id date_str time_str slot_id status).1, "已更新：" ++ status)
  | none => (s, "更新失败")

/-- app.py webhook "done" / "skip" branches (lines 685-692):
unconditionally update the task status and acknowledge with a fixed
success message (no existence check on the task id). -/
def webhook_act (s : Store) (now : Nat) (action task_id : String) : Store × String :=
  if action = "done" then (update_task_status s now task_id "done", "已记录：完成 ✅")
  else if action = "skip" then (update_task_status s now task_id "skip", "已记录：跳过 ⏭️")
  else (s, "")

/-- The loop of the webhook "snooze10" branch (app.py lines 698-707):
for each configured user whose chat id matches the acting chat, re-read
the original task's slot id and, when the row exists, create a follow-up
pending task via send_reminder_for_user / create_task.  The new task's
display time is timeOf (now + snooze window) and its date is
dateOf now; its deadline comes from create_task (now + timeout window).
fresh k is the k-th uuid4 drawn; dispatched reminders are external. -/
def snooze_loop (now tm sm : Nat) (fresh : Nat → String) (dateOf timeOf : Nat → String)
    (chat_id task_id : String) : List User → Nat → Store → Store
  | [], _, s => s
  | u :: rest, k, s =>
    if u.chat_id = chat_id then
      match s.tasks.find? fun t => t.task_id == task_id with
      | some row =>
        snooze_loop now tm sm fresh dateOf timeOf chat_id task_id rest (k + 1)
          (create_task s now tm (fresh k) u.chat_id (dateOf now) (timeOf (now + 60 * sm))
            row.slot_id)
      | none => snooze_loop now tm sm fresh dateOf timeOf chat_id task_id rest k s
    else snooze_loop now tm sm fresh dateOf timeOf chat_id task_id rest k s

/-- app.py webhook "snooze10" branch (lines 693-707): mark the task
snoozed, then chain a replacement reminder for the acting chat's
configured user(s). -/
def webhook_snooze (users : List User) (s : Store) (now tm sm : Nat) (fresh : Nat → String)
    (dateOf timeOf : Nat → String) (chat_id task_id : String) : Store :=
  snooze_loop now tm sm fresh dateOf timeOf chat_id task_id users 0
    (update_task_status s now task_id "snoozed")

/-! Report aggregator (app.py weekly_report_json, lines 429-601).
Dates are day counts from a Monday epoch; iso renders a date the way
date.isoformat() does.  The rotation table is the config mapping
weekday-name -> (time-of-day -> slot id), kept as association lists. -/

/-- One planned (date, time, slot) triple. -/
structure PlanItem where
  date : Nat
  time : String
  slot : String
  deriving DecidableEq

/-- The config rotation table: weekday name to time-of-day/slot pairs. -/
abbrev Rotation := List (String × List (String × String))

/-- app.py weekday_map = {0: "mon", ..., 4: "fri"}: weekend weekdays map
to nothing. -/
def weekday_name (w : Nat) : Option String :=
  ["mon", "tue", "wed", "thu", "fri"].get? w

/-- The inner loop of the plan builder: for one day, the rotation entry
for its weekday contributes one triple per configured time whose slot
lookup yields a truthy (nonempty) slot id. -/
def plan_day (rotation : Rotation) (times : List String) (d : Nat) : List PlanItem :=
  match weekday_name (d % 7) with
  | none => []
  | some wk =>
    match rotation.lookup wk with
    | none => []
    | some entry =>
      times.filterMap fun t =>
        match entry.lookup t with
        | some sl => if sl.isEmpty then none else some { date := d, time := t, slot := sl }
        | none => none

/-- Iterate calendar days d, d+1, ... for n days, collecting each day's
planned triples (the while d <= end_date loop). -/
def plan_days (rotation : Rotation) (times : List String) : Nat → Nat → List PlanItem
  | _, 0 => []
  | d, n + 1 => plan_day rotation times d ++ plan_days rotation times (d + 1) n

/-- The full planned set for the inclusive range [dstart, dend]. -/
def plan_range (rotation : Rotation) (times : List String) (dstart dend : Nat) : List PlanItem :=
  plan_days rotation times dstart (dend + 1 - dstart)

/-- The effective status of a planned slot: status_map lookup with
default "pending".  status_map is a dict comprehension over the fetched
rows, so for duplicate natural keys the last row wins; the final dict's
answer is the last matching row's status. -/
def eff_status (rows : List Task) (iso : Nat → String) (p : PlanItem) : String :=
  match rows.reverse.find? fun r =>
      r.date == iso p.date && r.time == p.time && r.slot_id == p.slot with
  | some r => r.status
  | none => "pending"

/-- counts[key] = counts.get(key, 0) + 1. -/
def bump (c : String → Nat) (key : String) : String → Nat :=
  fun key' => if key' = key then c key' + 1 else c key'

/-- The counts dict built by the main aggregation loop, as a total map
with default 0 (the code reads it back with .get(status, 0)). -/
def counts_of (eff : PlanItem → String) (plan : List PlanItem) : String → Nat :=
  plan.foldl (fun c p => bump c (eff p)) fun _ => 0

/-- The "done" column of the by_day dict keyed by iso date string:
incremented once per planned slot of that day whose effective status is
"done" (the streak loop reads exactly this column, with default 0 for
absent days). -/
def by_day_done (eff : PlanItem → String) (iso : Nat → String) (plan : List PlanItem) :
    String → Nat :=
  plan.foldl (fun m p => if eff p = "done" then bump m (iso p.date) else m) fun _ => 0

/-- Round-half-to-even on an exact rational, as an integer. -/
def round_half_even (q : ℚ) : ℤ :=
  let f := ⌊q⌋
  let r := q - f
  if r < 1 / 2 then f
  else if 1 / 2 < r then f + 1
  else if f % 2 = 0 then f else f + 1

/-- Python round(x, 2) on exact rationals. -/
def round2 (q : ℚ) : ℚ := (round_half_even (q * 100) : ℚ) / 100

/-- The streak while-loop: walk d downward while the day's done count is
positive; the fuel argument is the remaining number of days down to the
range start. -/
def streak_go (doneOn : Nat → Nat) : Nat → Nat → Nat
  | 0, _ => 0
  | n + 1, d => if 0 < doneOn d then 1 + streak_go doneOn n (d - 1) else 0

/-- streak: count consecutive days from end_date backwards (while
d >= start_date) with done > 0. -/
def streak_of (doneOn : Nat → Nat) (dstart dend : Nat) : Nat :=
  streak_go doneOn (dend + 1 - dstart) dend

/-- The summary block of the weekly report json consumed by the claims
(total_tasks, done, skipped, timeout, done_rate, streak_days). -/
structure ReportSummary where
  total_tasks : Nat
  done : Nat
  skipped : Nat
  timeout : Nat
  done_rate : ℚ
  streak_days : Nat
  deriving DecidableEq

/-- app.py weekly_report_json, restricted to the summary fields the
claims are about: build the plan, resolve each planned slot's effective
status against the fetched rows, aggregate counts / by_day, then
done_rate = round(done / total, 2) if total else 0.0 and the backward
streak walk over by_day. -/
def weekly_report_json (rotation : Rotation) (times : List String) (iso : Nat → String)
    (rows : List Task) (dstart dend : Nat) : ReportSummary :=
  let plan := plan_range rotation times dstart dend
  let eff := eff_status rows iso
  let counts := counts_of eff plan
  let total := plan.length
  let done := counts "done"
  let doneOn := by_day_done eff iso plan
  { total_tasks := total
    done := done
    skipped := counts "skip"
    timeout := counts "timeout"
    done_rate := if total = 0 then 0 else round2 ((done : ℚ) / (total : ℚ))
    streak_days := streak_of (fun d => doneOn (iso d)) dstart dend }

/-! Lifecycle step relation for the re-entry invariant: one application
of any lifecycle operation other than the directed-set/upsert path. -/

/-- One step of the task lifecycle excluding the directed-set (upsert)
path: task creation, a done/skip action, a snooze action, or a timeout
sweep. -/
inductive LifecycleStep : Store → Store → Prop
  | create (s : Store) (now tm : Nat) (tid uid d t sl : String) :
      LifecycleStep s (create_task s now tm tid uid d t sl)
  | actDone (s : Store) (now : Nat) (tid : String) :
      LifecycleStep s (webhook_act s now "done" tid).1
  | actSkip (s : Store) (now : Nat) (tid : String) :
      LifecycleStep s (webhook_act s now "skip" tid).1
  | snooze (users : List User) (s : Store) (now tm sm : Nat) (fresh : Nat → String)
      (dateOf timeOf : Nat → String) (chat tid : String) :
      LifecycleStep s (webhook_snooze users s now tm sm fresh dateOf timeOf chat tid)
  | sweep (s : Store) (now : Nat) :
      LifecycleStep s (timeout_scan s now)

/-- Any finite sequence of lifecycle steps. -/
inductive LifecycleReach : Store → Store → Prop
  | refl (s : Store) : LifecycleReach s s
  | tail {s t u : Store} : LifecycleReach s t → LifecycleStep t u → LifecycleReach s u

/-! Concrete fixtures for the closed witness and counterexample
theorems. -/

/-- A pending task with a 60-second-window deadline. -/
def demo_task : Task :=
  { task_id := "t1", user_id := "u1", date := "2026-01-05", time := "10:40", slot_id := "A1",
    status := "pending", created_at := 10, timeout_at := 70, clicked_at := none }

/-- A task already in the terminal status "done". -/
def demo_done : Task :=
  { task_id := "t2", user_id := "u1", date := "2026-01-05", time := "11:40", slot_id := "B1",
    status := "done", created_at := 10, timeout_at := 70, clicked_at := some 20 }

/-- A two-task store: one pending-expired, one done. -/
def demo_store : Store := { tasks := [demo_task, demo_done], events := [] }

/-- A one-entry configured user list for the chat "u1". -/
def demo_users : List User := [{ chat_id := "u1", name := "bob" }]

/-- A two-business-day rotation with a single configured time. -/
def demo_rotation : Rotation := [("mon", [("10:40", "A1")]), ("tue", [("10:40", "A1")])]

/-- A concrete stand-in for date.isoformat on the two epoch days. -/
def demo_iso : Nat → String := fun d => if d = 0 then "d0" else "d1"

/-- Fetched rows with a done task on each of the two epoch days. -/
def demo_rows : List Task :=
  [{ task_id := "r0", user_id := "u1", date := "d0", time := "10:40", slot_id := "A1",
     status := "done", created_at := 0, timeout_at := 60, clicked_at := some 5 },
   { task_id := "r1", user_id := "u1", date := "d1", time := "10:40", slot_id := "A1",
     status := "done", created_at := 0, timeout_at := 60, clicked_at := some 5 }]

/-! Helper lemmas shared by the claim theorems. -/

/-- An UPDATE whose WHERE clause matches no row leaves the relation
unchanged. -/
theorem map_update_missing (tasks : List Task) (tid : String) (f : Task → Task)
    (h : tid ∉ tasks.map Task.task_id) :
    (tasks.map fun t => if t.task_id = tid then f t else t) = tasks := by
  have : ∀ t ∈ tasks, (if t.task_id = tid then f t else t) = t := by
    intro t ht
    rw [if_neg]
    intro he
    exact h (List.mem_map.mpr ⟨t, ht, he⟩)
  rw [List.map_congr_left this]
  exact List.map_id' tasks

/-! Claim theorems. -/

/-- C5: every task produced by the creation path is appended with status
"pending", creation timestamp now, and deadline now + 60 * tm seconds,
i.e. the creation timestamp plus the configured timeout minutes; for any
positive timeout configuration the deadline strictly exceeds the
creation timestamp. -/
theorem create_task_pending_deadline (s : Store) (now tm : Nat) (tid uid d t sl : String) :
    (create_task s now tm tid uid d t sl).tasks.getLast? =
      some { task_id := tid, user_id := uid, date := d, time := t, slot_id := sl,
             status := "pending", created_at := now, timeout_at := now + 60 * tm,
             clicked_at := none } ∧
    (0 < tm → now < now + 60 * tm) := by
  refine ⟨?_, fun h => by omega⟩
  simp [create_task]

/-- Witness for C5 at a concrete creation. -/
theorem create_task_pending_deadline_witness :
    (create_task { tasks := [], events := [] } 3 60 "t9" "u1" "2026-01-05" "10:40"
        "A1").tasks.getLast? =
      some { task_id := "t9", user_id := "u1", date := "2026-01-05", time := "10:40",
             slot_id := "A1", status := "pending", created_at := 3, timeout_at := 3 + 60 * 60,
             clicked_at := none } ∧
    (3 : Nat) < 3 + 60 * 60 := by
  have h := create_task_pending_deadline { tasks := [], events := [] } 3 60 "t9" "u1"
    "2026-01-05" "10:40" "A1"
  exact ⟨h.1, h.2 (by decide)⟩

/-- C10: update_task_status appends exactly one Event row whose type is
the new status; the tasks relation keeps its length, every row whose id
differs from the given one is untouched, and when no row has the id the
whole tasks relation is unchanged while the Event row is still
appended. -/
theorem update_task_status_frame (s : Store) (now : Nat) (tid st : String) :
    (update_task_status s now tid st).events =
      s.events ++ [{ task_id := tid, user_id := none, event_type := st,
                     created_at := now, meta := none }] ∧
    (update_task_status s now tid st).tasks.length = s.tasks.length ∧
    (∀ (i : Nat) (t : Task), s.tasks[i]? = some t → t.task_id ≠ tid →
      (update_task_status s now tid st).tasks[i]? = some t) ∧
    (tid ∉ s.tasks.map Task.task_id → (update_task_status s now tid st).tasks = s.tasks) := by
  refine ⟨rfl, by simp [update_task_status], ?_, ?_⟩
  · intro i t hit hne
    simp [update_task_status, List.getElem?_map, hit, if_neg hne]
  · intro h
    exact map_update_missing s.tasks tid _ h

/-- Witness for C10: a frame-preserved row, and a missing id leaving the
tasks relation unchanged. -/
theorem update_task_status_frame_witness :
    (update_task_status demo_store 99 "t1" "done").tasks[1]? = some demo_done ∧
    (update_task_status { tasks := [], events := [] } 99 "zz" "done").tasks = [] :=
  ⟨(update_task_status_frame demo_store 99 "t1" "done").2.2.1 1 demo_done (by decide)
     (by decide),
   (update_task_status_frame { tasks := [], events := [] } 99 "zz" "done").2.2.2 (by decide)⟩

/-- C3 counterexample: acting "done" on the id "zz", which exists
nowhere in the store, is acknowledged with exactly the same success
message as acting on the real task "t1", and still appends an Event
row: the code does not report a no-op/failure, and storage does not
stay untouched. -/
theorem webhook_act_missing_id_not_failure :
    (webhook_act { tasks := [demo_task], events := [] } 99 "done" "zz").2 =
      (webhook_act { tasks := [demo_task], events := [] } 99 "done" "t1").2 ∧
    (webhook_act { tasks := [demo_task], events := [] } 99 "done" "zz").1.events ≠ [] := by
  decide

/-- C3 amended: acting done or skip on a task id absent from the store
updates no task row, but the caller is acknowledged with the fixed
success message (not a failure) and one Event row is still appended. -/
theorem webhook_act_missing_id (s : Store) (now : Nat) (tid : String)
    (h : tid ∉ s.tasks.map Task.task_id) :
    ((webhook_act s now "done" tid).1.tasks = s.tasks ∧
      (webhook_act s now "done" tid).2 = "已记录：完成 ✅" ∧
      (webhook_act s now "done" tid).1.events =
        s.events ++ [{ task_id := tid, user_id := none, event_type := "done",
                       created_at := now, meta := none }]) ∧
    ((webhook_act s now "skip" tid).1.tasks = s.tasks ∧
      (webhook_act s now "skip" tid).2 = "已记录：跳过 ⏭️" ∧
      (webhook_act s now "skip" tid).1.events =
        s.events ++ [{ task_id := tid, user_id := none, event_type := "skip",
                       created_at := now, meta := none }]) := by
  have hd : webhook_act s now "done" tid =
      (update_task_status s now tid "done", "已记录：完成 ✅") := rfl
  have hs : webhook_act s now "skip" tid =
      (update_task_status s now tid "skip", "已记录：跳过 ⏭️") := rfl
  rw [hd, hs]
  exact ⟨⟨map_update_missing s.tasks tid _ h, rfl, rfl⟩,
         ⟨map_update_missing s.tasks tid _ h, rfl, rfl⟩⟩

/-- Witness for the amended C3 at a concrete store and missing id. -/
theorem webhook_act_missing_id_witness :
    (webhook_act { tasks := [demo_task], events := [] } 99 "done" "zz").1.tasks =
      [demo_task] :=
  (webhook_act_missing_id { tasks := [demo_task], events := [] } 99 "zz" (by decide)).1.1

/-- C4: a directed-set descriptor that does not split into its four
required parts makes the webhook set branch acknowledge failure and
return the store unchanged: no task row is inserted or updated. -/
theorem webhook_set_malformed (s : Store) (now tm : Nat) (nid chat payload : String)
    (h : split4 payload = none) :
    webhook_set s now tm nid chat payload = (s, "更新失败") := by
  unfold webhook_set
  rw [h]

/-- Witness for C4: a three-field descriptor fails and mutates
nothing. -/
theorem webhook_set_malformed_witness :
    webhook_set demo_store 99 60 "n1" "u1" "2026-01-05|10:40|A1" = (demo_store, "更新失败") :=
  webhook_set_malformed demo_store 99 60 "n1" "u1" "2026-01-05|10:40|A1" (by decide)

/-- C9 counterexample: upserting status "pending" on an empty store (the
today-plan pending button on a slot with no row yet) inserts a task
whose status is "pending" and whose action timestamp is already set to
the upsert time 7, so a stored task can be pending with an action
timestamp present. -/
theorem upsert_pending_task_has_clicked_at :
    ((upsert_task { tasks := [], events := [] } 7 60 "n1" "u1" "2026-01-05" "10:40" "A1"
        "pending").1.tasks.map fun t => (t.status, t.clicked_at)) =
      [("pending", some 7)] := by
  decide

/-- C2 counterexample: a task recorded as "done" re-enters "pending"
through the directed-set path: the today-plan buttons expose the
callback descriptor date|time|slot|pending, and the upsert overwrites
the existing row's terminal status with "pending". -/
theorem set_reenters_pending :
    ((upsert_task { tasks := [], events := [] } 5 60 "n1" "u1" "2026-01-05" "10:40" "A1"
        "done").1.tasks.map Task.status) = ["done"] ∧
    ((webhook_set
        (upsert_task { tasks := [], events := [] } 5 60 "n1" "u1" "2026-01-05" "10:40" "A1"
          "done").1
        6 60 "n2" "u1" "2026-01-05|10:40|A1|pending").1.tasks.map Task.status) =
      ["pending"] := by
  decide

/-- Under the tasks-table primary-key invariant (pairwise distinct task
ids), a task's id is among the ids selected by the sweep's SELECT
exactly when that task itself is pending and expired. -/
theorem mem_expired_ids (s : Store) (now : Nat)
    (hpk : (s.tasks.map Task.task_id).Nodup) (t : Task) (ht : t ∈ s.tasks) :
    (t.task_id ∈ (s.tasks.filter fun x =>
        x.status == "pending" && decide (x.timeout_at ≤ now)).map Task.task_id) ↔
      (t.status = "pending" ∧ t.timeout_at ≤ now) := by
  constructor
  · intro h
    rcases List.mem_map.mp h with ⟨u, hu, hid⟩
    rcases List.mem_filter.mp hu with ⟨humem, hup⟩
    have heq : u = t := List.inj_on_of_nodup_map hpk humem ht hid
    subst heq
    simpa using hup
  · rintro ⟨h1, h2⟩
    exact List.mem_map.mpr ⟨t, List.mem_filter.mpr ⟨ht, by simp [h1, h2]⟩, rfl⟩

/-- C9 amended: the creation path stores no action timestamp (the new
task is "pending" with clicked_at none); the status-update path and the
timeout sweep stamp clicked_at = now on the row they move out of
"pending"; but the upsert path always stores an action timestamp on
both of its branches — overwriting an existing natural-key row or
inserting a new one — even when the status it writes is "pending". -/
theorem clicked_at_discipline (s : Store) (now tm : Nat) (tid uid d t sl st : String) :
    ((create_task s now tm tid uid d t sl).tasks.getLast?.map fun x =>
        (x.status, x.clicked_at)) = some ("pending", none) ∧
    (∀ (i : Nat) (x : Task), s.tasks[i]? = some x → x.task_id = tid →
      (update_task_status s now tid st).tasks[i]? =
        some { x with status := st, clicked_at := some now }) ∧
    (∀ (i : Nat) (x : Task), s.tasks[i]? = some x →
      (s.tasks.map Task.task_id).Nodup → x.status = "pending" → x.timeout_at ≤ now →
      (timeout_scan s now).tasks[i]? =
        some { x with status := "timeout", clicked_at := some now }) ∧
    (∀ row : Task, (s.tasks.find? fun x =>
        x.user_id == uid && x.date == d && x.time == t && x.slot_id == sl) = some row →
      ∀ (i : Nat) (x : Task), s.tasks[i]? = some x → x.task_id = row.task_id →
        (upsert_task s now tm tid uid d t sl st).1.tasks[i]? =
          some { x with status := st, clicked_at := some now }) ∧
    ((s.tasks.find? fun x =>
        x.user_id == uid && x.date == d && x.time == t && x.slot_id == sl) = none →
      ((upsert_task s now tm tid uid d t sl st).1.tasks.getLast?.map fun x =>
        (x.status, x.clicked_at)) = some (st, some now)) := by
  refine ⟨by simp [create_task], ?_, ?_, ?_, ?_⟩
  · intro i x hit hid
    simp [update_task_status, List.getElem?_map, hit, if_pos hid]
  · intro i x hit hpk hp hle
    have hxm : x ∈ s.tasks := List.getElem?_mem hit
    simp only [timeout_scan, List.getElem?_map, hit, Option.map_some']
    rw [if_pos ((mem_expired_ids s now hpk x hxm).mpr ⟨hp, hle⟩)]
  · intro row hfound i x hit hid
    unfold upsert_task
    rw [hfound]
    simp [List.getElem?_map, hit, if_pos hid]
  · intro hmiss
    unfold upsert_task
    rw [hmiss]
    simp

/-- Witness for the amended C9: a created task carries no action
timestamp; an act, a sweep, an upsert overwrite and an upsert insert all
stamp clicked_at — the last two even for status "pending". -/
theorem clicked_at_discipline_witness :
    ((create_task { tasks := [], events := [] } 7 60 "n1" "u1" "2026-01-05" "10:40"
        "A1").tasks.getLast?.map fun x => (x.status, x.clicked_at)) =
      some ("pending", none) ∧
    (update_task_status demo_store 100 "t1" "done").tasks[0]? =
      some { demo_task with status := "done", clicked_at := some 100 } ∧
    (timeout_scan demo_store 100).tasks[0]? =
      some { demo_task with status := "timeout", clicked_at := some 100 } ∧
    (upsert_task demo_store 100 60 "n9" "u1" "2026-01-05" "10:40" "A1"
        "pending").1.tasks[0]? =
      some { demo_task with status := "pending", clicked_at := some 100 } ∧
    ((upsert_task { tasks := [], events := [] } 7 60 "n1" "u1" "2026-01-05" "10:40" "A1"
        "pending").1.tasks.getLast?.map fun x => (x.status, x.clicked_at)) =
      some ("pending", some 7) :=
  ⟨(clicked_at_discipline { tasks := [], events := [] } 7 60 "n1" "u1" "2026-01-05" "10:40"
      "A1" "pending").1,
   (clicked_at_discipline demo_store 100 60 "t1" "u1" "2026-01-05" "10:40" "A1"
      "done").2.1 0 demo_task (by decide) (by decide),
   (clicked_at_discipline demo_store 100 60 "t1" "u1" "2026-01-05" "10:40" "A1"
      "done").2.2.1 0 demo_task (by decide) (by decide) (by decide) (by decide),
   (clicked_at_discipline demo_store 100 60 "n9" "u1" "2026-01-05" "10:40" "A1"
      "pending").2.2.2.1 demo_task (by decide) 0 demo_task (by decide) (by decide),
   (clicked_at_discipline { tasks := [], events := [] } 7 60 "n1" "u1" "2026-01-05" "10:40"
      "A1" "pending").2.2.2.2 (by decide)⟩

/-- C1: under the primary-key invariant, the timeout sweep at time now
keeps the tasks relation the same length and rewrites each row to
status "timeout" (stamping clicked_at = now) exactly when that row was
pending with deadline at most now; every other row, in particular every
row already in a terminal status, is returned unchanged. -/
theorem timeout_scan_exact (s : Store) (now : Nat)
    (hpk : (s.tasks.map Task.task_id).Nodup) :
    (timeout_scan s now).tasks.length = s.tasks.length ∧
    ∀ (i : Nat) (t : Task), s.tasks[i]? = some t →
      (timeout_scan s now).tasks[i]? =
        some (if t.status = "pending" ∧ t.timeout_at ≤ now
              then { t with status := "timeout", clicked_at := some now }
              else t) := by
  constructor
  · simp [timeout_scan]
  · intro i t hit
    have htm : t ∈ s.tasks := List.getElem?_mem hit
    simp only [timeout_scan, List.getElem?_map, hit, Option.map_some']
    by_cases hc : t.status = "pending" ∧ t.timeout_at ≤ now
    · rw [if_pos ((mem_expired_ids s now hpk t htm).mpr hc), if_pos hc]
    · rw [if_neg (fun hmem => hc ((mem_expired_ids s now hpk t htm).mp hmem)), if_neg hc]

/-- Witness for C1: the sweep times out the pending-expired task and
leaves the done task of the same store unchanged. -/
theorem timeout_scan_exact_witness :
    (timeout_scan demo_store 100).tasks[0]? =
      some { demo_task with status := "timeout", clicked_at := some 100 } ∧
    (timeout_scan demo_store 100).tasks[1]? = some demo_done :=
  ⟨((timeout_scan_exact demo_store 100 (by decide)).2 0 demo_task (by decide)).trans
     (by decide),
   ((timeout_scan_exact demo_store 100 (by decide)).2 1 demo_done (by decide)).trans
     (by decide)⟩

/-- When no user in the list has the acting chat id, the snooze chain
creates nothing. -/
theorem snooze_loop_no_match (now tm sm : Nat) (fresh : Nat → String)
    (dateOf timeOf : Nat → String) (chat tid : String) :
    ∀ (users : List User), (∀ u ∈ users, u.chat_id ≠ chat) →
      ∀ (k : Nat) (st : Store),
        snooze_loop now tm sm fresh dateOf timeOf chat tid users k st = st := by
  intro users
  induction users with
  | nil => intro _ k st; rfl
  | cons u rest ih =>
    intro h k st
    have hu : u.chat_id ≠ chat := h u (List.mem_cons_self u rest)
    simp only [snooze_loop, if_neg hu]
    exact ih (fun v hv => h v (List.mem_cons_of_mem u hv)) k st

/-- When exactly one user in the list has the acting chat id and the
original task's row is found, the snooze chain is a single create_task
for that chat on the original slot. -/
theorem snooze_loop_single_match (now tm sm : Nat) (fresh : Nat → String)
    (dateOf timeOf : Nat → String) (chat tid : String) :
    ∀ (users : List User), (users.filter fun u => u.chat_id == chat).length = 1 →
      ∀ (k : Nat) (st : Store) (row : Task),
        (st.tasks.find? fun t => t.task_id == tid) = some row →
        snooze_loop now tm sm fresh dateOf timeOf chat tid users k st =
          create_task st now tm (fresh k) chat (dateOf now) (timeOf (now + 60 * sm))
            row.slot_id := by
  intro users
  induction users with
  | nil => intro h; simp at h
  | cons u rest ih =>
    intro h k st row hfind
    by_cases hc : u.chat_id = chat
    · have hrest : (rest.filter fun u => u.chat_id == chat).length = 0 := by
        rw [List.filter_cons_of_pos (by simp [hc])] at h
        simpa using h
      have hnomatch : ∀ v ∈ rest, v.chat_id ≠ chat := by
        intro v hv hvc
        have hmem : v ∈ rest.filter fun u => u.chat_id == chat :=
          List.mem_filter.mpr ⟨hv, by simp [hvc]⟩
        rw [List.length_eq_zero] at hrest
        rw [hrest] at hmem
        exact List.not_mem_nil v hmem
      simp only [snooze_loop, if_pos hc, hfind]
      rw [snooze_loop_no_match now tm sm fresh dateOf timeOf chat tid rest hnomatch]
      rw [hc]
    · have h1 : (rest.filter fun u => u.chat_id == chat).length = 1 := by
        rwa [List.filter_cons_of_neg (by simp [hc])] at h
      simp only [snooze_loop, if_neg hc]
      exact ih h1 k st row hfind

/-- The status UPDATE of a snooze leaves the first row found for the
task id in place, with the new status and action timestamp. -/
theorem find_after_update (s : Store) (now : Nat) (tid st : String) (t0 : Task)
    (hfind : (s.tasks.find? fun t => t.task_id == tid) = some t0) :
    ((update_task_status s now tid st).tasks.find? fun t => t.task_id == tid) =
      some { t0 with status := st, clicked_at := some now } := by
  unfold update_task_status
  rw [List.find?_map]
  have hpf : ((fun t : Task => t.task_id == tid) ∘ fun t =>
      if t.task_id = tid then { t with status := st, clicked_at := some now } else t) =
      fun t : Task => t.task_id == tid := by
    funext t
    by_cases h : t.task_id = tid <;> simp [h]
  rw [hpf, hfind]
  have ht0 : t0.task_id = tid := by simpa using List.find?_some hfind
  simp [Option.map_some', if_pos ht0]

/-- C6: acting snooze on an existing task T (its row found by id, its
recipient being the acting chat, for which exactly one user is
configured) appends exactly one new task: same recipient, same slot id,
status "pending", created at the snooze action time with deadline
timeout-minutes later; T itself is left in status "snoozed" and every
row with a different id is unchanged. -/
theorem webhook_snooze_spec (users : List User) (s : Store) (now tm sm : Nat)
    (fresh : Nat → String) (dateOf timeOf : Nat → String) (chat tid : String) (t0 : Task)
    (hfind : (s.tasks.find? fun t => t.task_id == tid) = some t0)
    (hrecip : t0.user_id = chat)
    (husers : (users.filter fun u => u.chat_id == chat).length = 1) :
    (webhook_snooze users s now tm sm fresh dateOf timeOf chat tid).tasks.length =
        s.tasks.length + 1 ∧
    (webhook_snooze users s now tm sm fresh dateOf timeOf chat tid).tasks.getLast? =
      some { task_id := fresh 0, user_id := t0.user_id, date := dateOf now,
             time := timeOf (now + 60 * sm), slot_id := t0.slot_id, status := "pending",
             created_at := now, timeout_at := now + 60 * tm, clicked_at := none } ∧
    ((webhook_snooze users s now tm sm fresh dateOf timeOf chat tid).tasks.find? fun t =>
        t.task_id == tid) = some { t0 with status := "snoozed", clicked_at := some now } ∧
    (∀ (i : Nat) (t : Task), s.tasks[i]? = some t → t.task_id ≠ tid →
      (webhook_snooze users s now tm sm fresh dateOf timeOf chat tid).tasks[i]? = some t) := by
  have hf1 := find_after_update s now tid "snoozed" t0 hfind
  have hrun : webhook_snooze users s now tm sm fresh dateOf timeOf chat tid =
      create_task (update_task_status s now tid "snoozed") now tm (fresh 0) chat
        (dateOf now) (timeOf (now + 60 * sm)) t0.slot_id := by
    unfold webhook_snooze
    exact snooze_loop_single_match now tm sm fresh dateOf timeOf chat tid users husers 0
      (update_task_status s now tid "snoozed")
      { t0 with status := "snoozed", clicked_at := some now } hf1
  rw [hrun]
  refine ⟨by simp [create_task, update_task_status], ?_, ?_, ?_⟩
  · rw [hrecip]
    simp [create_task]
  · unfold create_task
    simp only [List.find?_append, hf1, Option.or_some]
  · intro i t hit hne
    have hup : (update_task_status s now tid "snoozed").tasks[i]? = some t := by
      simp [update_task_status, List.getElem?_map, hit, if_neg hne]
    have hlt : i < (update_task_status s now tid "snoozed").tasks.length :=
      (List.getElem?_eq_some.mp hup).1
    simp [create_task, List.getElem?_append, hlt, hup]

/-- Witness for C6 at a concrete store, user list and snooze action. -/
theorem webhook_snooze_spec_witness :
    (webhook_snooze demo_users demo_store 50 60 10 (fun _ => "f0") (fun _ => "2026-01-05")
        (fun _ => "11:00") "u1" "t1").tasks.length = demo_store.tasks.length + 1 :=
  (webhook_snooze_spec demo_users demo_store 50 60 10 (fun _ => "f0") (fun _ => "2026-01-05")
    (fun _ => "11:00") "u1" "t1" demo_task (by decide) rfl (by decide)).1

/-- The snooze chain only ever appends to the tasks relation: the
original rows stay a prefix. -/
theorem snooze_loop_tasks_prefix (now tm sm : Nat) (fresh : Nat → String)
    (dateOf timeOf : Nat → String) (chat tid : String) :
    ∀ (users : List User) (k : Nat) (st : Store),
      ∃ l, (snooze_loop now tm sm fresh dateOf timeOf chat tid users k st).tasks =
        st.tasks ++ l := by
  intro users
  induction users with
  | nil => intro k st; exact ⟨[], by simp [snooze_loop]⟩
  | cons u rest ih =>
    intro k st
    by_cases hc : u.chat_id = chat
    · simp only [snooze_loop, if_pos hc]
      cases hfind : st.tasks.find? fun t => t.task_id == tid with
      | some row =>
        rcases ih (k + 1) (create_task st now tm (fresh k) u.chat_id (dateOf now)
          (timeOf (now + 60 * sm)) row.slot_id) with ⟨l, hl⟩
        refine ⟨{ task_id := fresh k, user_id := u.chat_id, date := dateOf now,
                  time := timeOf (now + 60 * sm), slot_id := row.slot_id,
                  status := "pending", created_at := now, timeout_at := now + 60 * tm,
                  clicked_at := none } :: l, ?_⟩
        rw [hl]
        simp [create_task]
      | none => exact ih k st
    · simp only [snooze_loop, if_neg hc]
      exact ih k st

/-- A status UPDATE that writes a non-"pending" status keeps every row
in place, keeps its id, and never turns a non-pending row pending. -/
theorem update_task_status_preserves (s : Store) (now : Nat) (tid st : String)
    (hst : st ≠ "pending") (i : Nat) (t : Task) (hit : s.tasks[i]? = some t) :
    ∃ t', (update_task_status s now tid st).tasks[i]? = some t' ∧
      t'.task_id = t.task_id ∧ (t.status ≠ "pending" → t'.status ≠ "pending") := by
  by_cases hc : t.task_id = tid
  · exact ⟨{ t with status := st, clicked_at := some now },
      by simp [update_task_status, List.getElem?_map, hit, if_pos hc], rfl, fun _ => hst⟩
  · exact ⟨t, by simp [update_task_status, List.getElem?_map, hit, if_neg hc], rfl,
      fun hh => hh⟩

/-- The sweep keeps every row in place, keeps its id, and writes only
"timeout", never "pending". -/
theorem timeout_scan_preserves (s : Store) (now : Nat) (i : Nat) (t : Task)
    (hit : s.tasks[i]? = some t) :
    ∃ t', (timeout_scan s now).tasks[i]? = some t' ∧
      t'.task_id = t.task_id ∧ (t.status ≠ "pending" → t'.status ≠ "pending") := by
  by_cases hc : t.task_id ∈ (s.tasks.filter fun x =>
      x.status == "pending" && decide (x.timeout_at ≤ now)).map Task.task_id
  · exact ⟨{ t with status := "timeout", clicked_at := some now },
      by simp only [timeout_scan, List.getElem?_map, hit, Option.map_some']
         rw [if_pos hc], rfl, fun _ => show ("timeout" : String) ≠ "pending" by decide⟩
  · exact ⟨t,
      by simp only [timeout_scan, List.getElem?_map, hit, Option.map_some']
         rw [if_neg hc], rfl, fun hh => hh⟩

/-- Snoozing keeps every original row in place (with "snoozed" written
on the matching id) and only appends new rows. -/
theorem webhook_snooze_preserves (users : List User) (s : Store) (now tm sm : Nat)
    (fresh : Nat → String) (dateOf timeOf : Nat → String) (chat tid : String)
    (i : Nat) (t : Task) (hit : s.tasks[i]? = some t) :
    ∃ t', (webhook_snooze users s now tm sm fresh dateOf timeOf chat tid).tasks[i]? =
        some t' ∧ t'.task_id = t.task_id ∧
      (t.status ≠ "pending" → t'.status ≠ "pending") := by
  rcases update_task_status_preserves s now tid "snoozed" (by decide) i t hit with
    ⟨t', h1, hid, hst⟩
  rcases snooze_loop_tasks_prefix now tm sm fresh dateOf timeOf chat tid users 0
    (update_task_status s now tid "snoozed") with ⟨l, hl⟩
  have hlt : i < (update_task_status s now tid "snoozed").tasks.length :=
    (List.getElem?_eq_some.mp h1).1
  refine ⟨t', ?_, hid, hst⟩
  unfold webhook_snooze
  rw [hl]
  simp [List.getElem?_append, hlt, h1]

/-- One lifecycle step (excluding the directed-set path) keeps each
existing row's position and id and never writes "pending" onto a row
that had left "pending". -/
theorem lifecycle_step_preserves (s s' : Store) (h : LifecycleStep s s') (i : Nat) (t : Task)
    (hit : s.tasks[i]? = some t) :
    ∃ t', s'.tasks[i]? = some t' ∧ t'.task_id = t.task_id ∧
      (t.status ≠ "pending" → t'.status ≠ "pending") := by
  cases h with
  | create _ now tm tid uid dd tt sl =>
    have hlen : i < s.tasks.length := (List.getElem?_eq_some.mp hit).1
    exact ⟨t, by simp [create_task, List.getElem?_append, hlen, hit], rfl, fun hh => hh⟩
  | actDone _ now tid =>
    have heq : (webhook_act s now "done" tid).1 = update_task_status s now tid "done" := rfl
    rw [heq]
    exact update_task_status_preserves s now tid "done" (by decide) i t hit
  | actSkip _ now tid =>
    have heq : (webhook_act s now "skip" tid).1 = update_task_status s now tid "skip" := rfl
    rw [heq]
    exact update_task_status_preserves s now tid "skip" (by decide) i t hit
  | snooze users _ now tm sm fresh dateOf timeOf chat tid =>
    exact webhook_snooze_preserves users s now tm sm fresh dateOf timeOf chat tid i t hit
  | sweep _ now =>
    exact timeout_scan_preserves s now i t hit

/-- Lifecycle steps never shrink the tasks relation. -/
theorem lifecycle_step_length (s s' : Store) (h : LifecycleStep s s') :
    s.tasks.length ≤ s'.tasks.length := by
  cases h with
  | create _ now tm tid uid dd tt sl => simp [create_task]
  | actDone _ now tid =>
    have heq : (webhook_act s now "done" tid).1 = update_task_status s now tid "done" := rfl
    rw [heq]
    simp [update_task_status]
  | actSkip _ now tid =>
    have heq : (webhook_act s now "skip" tid).1 = update_task_status s now tid "skip" := rfl
    rw [heq]
    simp [update_task_status]
  | snooze users _ now tm sm fresh dateOf timeOf chat tid =>
    rcases snooze_loop_tasks_prefix now tm sm fresh dateOf timeOf chat tid users 0
      (update_task_status s now tid "snoozed") with ⟨l, hl⟩
    unfold webhook_snooze
    rw [hl]
    simp [update_task_status]
  | sweep _ now => simp [timeout_scan]

/-- Along any sequence of lifecycle steps, each original row keeps its
position and id, and a row that had left "pending" stays
non-"pending". -/
theorem lifecycle_reach_preserves (s s' : Store) (h : LifecycleReach s s') (i : Nat) (t : Task)
    (hit : s.tasks[i]? = some t) :
    ∃ t', s'.tasks[i]? = some t' ∧ t'.task_id = t.task_id ∧
      (t.status ≠ "pending" → t'.status ≠ "pending") := by
  induction h with
  | refl => exact ⟨t, hit, rfl, fun hh => hh⟩
  | tail hreach hstep ih =>
    rcases ih with ⟨t1, h1, hid1, hs1⟩
    rcases lifecycle_step_preserves _ _ hstep i t1 h1 with ⟨t2, h2, hid2, hs2⟩
    exact ⟨t2, h2, hid2.trans hid1, fun hn => hs2 (hs1 hn)⟩

/-- C2 amended: over any sequence of lifecycle operations excluding the
directed-set/upsert path (task creation, act done/skip, act snooze,
timeout sweep), an existing task whose status has left "pending" never
has status "pending" again.  The directed-set path is the one exception:
it can overwrite an existing row's status with "pending" (see the
counterexample set_reenters_pending). -/
theorem no_pending_reentry (s s' : Store) (h : LifecycleReach s s') (i : Nat) (t t' : Task)
    (hit : s.tasks[i]? = some t) (hit' : s'.tasks[i]? = some t')
    (hnp : t.status ≠ "pending") :
    t'.task_id = t.task_id ∧ t'.status ≠ "pending" := by
  rcases lifecycle_reach_preserves s s' h i t hit with ⟨u, hu, hid, hs⟩
  rw [hu] at hit'
  cases hit'
  exact ⟨hid, hs hnp⟩

/-- Witness for the amended C2: a done task stays non-pending across a
sweep step. -/
theorem no_pending_reentry_witness :
    demo_done.task_id = demo_done.task_id ∧ demo_done.status ≠ "pending" :=
  no_pending_reentry demo_store (timeout_scan demo_store 100)
    (LifecycleReach.tail (LifecycleReach.refl demo_store) (LifecycleStep.sweep demo_store 100))
    1 demo_done demo_done (by decide) (by decide) (by decide)

/-- The fold that builds the counts dict counts, for each key, the plan
entries whose effective status is that key (on top of the initial
value). -/
theorem foldl_bump_count (eff : PlanItem → String) (key : String) :
    ∀ (plan : List PlanItem) (c : String → Nat),
      (plan.foldl (fun c p => bump c (eff p)) c) key =
        c key + (plan.filter fun p => eff p == key).length := by
  intro plan
  induction plan with
  | nil => intro c; simp
  | cons p rest ih =>
    intro c
    rw [List.foldl_cons, ih]
    by_cases h : eff p = key
    · rw [List.filter_cons_of_pos (by simp [h])]
      simp [bump, h]
      omega
    · rw [List.filter_cons_of_neg (by simp [h])]
      have h2 : ¬key = eff p := fun hh => h hh.symm
      simp [bump, h2]

/-- The counts dict read back at a key equals the number of planned
slots with that effective status. -/
theorem counts_of_eq (eff : PlanItem → String) (plan : List PlanItem) (key : String) :
    counts_of eff plan key = (plan.filter fun p => eff p == key).length := by
  unfold counts_of
  rw [foldl_bump_count]
  simp

/-- C7: the report's total is the planned count, its done_rate equals
the count of planned slots whose effective status is "done" divided by
the planned total and rounded to two decimals, and it is exactly 0 when
the planned total is 0. -/
theorem weekly_report_done_rate (rotation : Rotation) (times : List String)
    (iso : Nat → String) (rows : List Task) (dstart dend : Nat) :
    (weekly_report_json rotation times iso rows dstart dend).total_tasks =
        (plan_range rotation times dstart dend).length ∧
    ((weekly_report_json rotation times iso rows dstart dend).done_rate =
      if (plan_range rotation times dstart dend).length = 0 then 0
      else round2
        ((((plan_range rotation times dstart dend).filter fun p =>
              eff_status rows iso p == "done").length : ℚ) /
          ((plan_range rotation times dstart dend).length : ℚ))) ∧
    ((plan_range rotation times dstart dend).length = 0 →
      (weekly_report_json rotation times iso rows dstart dend).done_rate = 0) := by
    refine ⟨rfl, ?_, ?_⟩
    · show (if (plan_range rotation times dstart dend).length = 0 then (0 : ℚ)
        else round2 ((counts_of (eff_status rows iso) (plan_range rotation times dstart dend)
            "done" : ℚ) / ((plan_range rotation times dstart dend).length : ℚ))) = _
      rw [counts_of_eq]
    · intro h
      show (if (plan_range rotation times dstart dend).length = 0 then (0 : ℚ)
        else round2 ((counts_of (eff_status rows iso) (plan_range rotation times dstart dend)
            "done" : ℚ) / ((plan_range rotation times dstart dend).length : ℚ))) = 0
      rw [if_pos h]

/-- Witness for C7: a weekend-only range plans nothing and reports rate
exactly 0. -/
theorem weekly_report_done_rate_witness :
    (weekly_report_json demo_rotation ["10:40"] demo_iso [] 5 5).done_rate = 0 :=
  (weekly_report_done_rate demo_rotation ["10:40"] demo_iso [] 5 5).2.2 (by decide)

/-- The streak while-loop runs to its fuel bound when every visited day
has a positive done count. -/
theorem streak_go_all (f : Nat → Nat) :
    ∀ (n d : Nat), (∀ k, k < n → 0 < f (d - k)) → streak_go f n d = n := by
  intro n
  induction n with
  | zero => intro d _; rfl
  | succ m ih =>
    intro d h
    have h0 : 0 < f d := by simpa using h 0 (Nat.succ_pos m)
    have hrest : ∀ k, k < m → 0 < f (d - 1 - k) := by
      intro k hk
      have hv := h (k + 1) (by omega)
      have he : d - 1 - k = d - (k + 1) := by omega
      rw [he]
      exact hv
    simp only [streak_go, if_pos h0, ih (d - 1) hrest]
    omega

/-- C8: when every day of the inclusive range has a positive done count
in the report's by_day table, the streak is the full number of days of
the range; when the end date's done count is 0, the streak is 0. -/
theorem weekly_report_streak (rotation : Rotation) (times : List String) (iso : Nat → String)
    (rows : List Task) (dstart dend : Nat) :
    ((∀ d, dstart ≤ d → d ≤ dend →
        0 < by_day_done (eff_status rows iso) iso (plan_range rotation times dstart dend)
          (iso d)) →
      (weekly_report_json rotation times iso rows dstart dend).streak_days =
        dend + 1 - dstart) ∧
    (by_day_done (eff_status rows iso) iso (plan_range rotation times dstart dend)
        (iso dend) = 0 →
      (weekly_report_json rotation times iso rows dstart dend).streak_days = 0) := by
  constructor
  · intro h
    show streak_of (fun d => by_day_done (eff_status rows iso) iso
        (plan_range rotation times dstart dend) (iso d)) dstart dend = dend + 1 - dstart
    unfold streak_of
    refine streak_go_all _ _ _ ?_
    intro k hk
    exact h (dend - k) (by omega) (by omega)
  · intro h0
    show streak_of (fun d => by_day_done (eff_status rows iso) iso
        (plan_range rotation times dstart dend) (iso d)) dstart dend = 0
    unfold streak_of
    cases hn : dend + 1 - dstart with
    | zero => rfl
    | succ m =>
      simp [streak_go, h0]

/-- Witness for C8: a Monday-Tuesday range with one done task each day
has streak 2. -/
theorem weekly_report_streak_witness :
    (weekly_report_json demo_rotation ["10:40"] demo_iso demo_rows 0 1).streak_days = 2 :=
  (weekly_report_streak demo_rotation ["10:40"] demo_iso demo_rows 0 1).1
    (by
      intro d h0 h1
      interval_cases d <;> decide)

end Pushup
